import Mathlib

/-!
# Verification of the LowLatencyMachineEngine order-matching core

A shallow embedding of the matching subsystem of the C++ repository
(`OrderBook`, `Order`, `LockFreeRingBuffer`, engine performance metrics),
translated definition-by-definition from the source files, together with
theorems settling the frozen claims about the specification.

Modeling conventions:

* C++ `double` prices and volumes are modeled as `ℚ`.  Every price operation
  the matching core performs (comparison, addition, halving, multiplication
  by a quantity) is exact on the rationals; the concrete scenarios in the
  claims use values on which the C++ `double` arithmetic is also exact.
* C++ `uint64_t` / `size_t` quantities and counters are modeled as `Nat`.
  Subtraction sites (`remaining_quantity`, `total_orders_--`) use truncated
  `Nat` subtraction; this coincides with `uint64_t` subtraction on every
  state in which `filled_quantity ≤ quantity` and counters are consistent.
  The matching loop preserves `filled_quantity ≤ quantity`, but
  `modify_order` overwrites `quantity` with no guard, so a state with
  `filled_quantity > quantity` is reachable; there the C++ remaining
  quantity wraps to a value near `2^64` while this model truncates to 0,
  and that match trades differently in the two semantics.  The one theorem
  that quantifies over a single match's fill accounting therefore carries
  the `filled_quantity ≤ quantity` hypothesis on the two counterparties,
  under which the model and the `uint64_t` arithmetic agree exactly.
* `std::shared_ptr<Order>` aliasing is modeled by an allocation arena
  (`heap : List Order`); ladders and the id-map store arena indices, and the
  book mutates orders through those indices, exactly as the C++ code
  mutates the shared objects.  Orders removed from the book remain
  observable in the arena, as they do through client-held `shared_ptr`s.
* Wall-clock reads (`std::chrono::high_resolution_clock::now()`) are
  parameters where a claim depends on them (the `Order` constructor,
  `modify_order`) and stubbed to `0` where no claim observes them
  (the trade timestamp written by `record_trade`).
* `all_trades` is a ghost history field: it records every trade ever
  recorded, without the `MAX_TRADES_HISTORY` eviction applied to
  `recent_trades_`.  No operation reads it; it exists only to state the
  cumulative-volume invariant.
-/

namespace UltraFastAnalysis

/-- The C++ `enum class OrderSide` from `include/order.h`. -/
inductive OrderSide where
  | BUY
  | SELL
deriving DecidableEq, Repr

/-- The C++ `enum class OrderType` from `include/order.h`. -/
inductive OrderType where
  | MARKET
  | LIMIT
  | STOP
  | STOP_LIMIT
deriving DecidableEq, Repr

/-- The C++ `enum class OrderStatus` from `include/order.h`. -/
inductive OrderStatus where
  | PENDING
  | PARTIALLY_FILLED
  | FILLED
  | CANCELLED
  | REJECTED
deriving DecidableEq, Repr

/-- The C++ `struct Order` from `include/order.h`.  `price`, `stop_price` are C++
`double`, modeled as `ℚ`; `timestamp` is a `high_resolution_clock`
time point, modeled as nanoseconds since epoch (`Nat`). -/
structure Order where
  order_id : Nat
  client_id : Nat
  symbol : String
  side : OrderSide
  type : OrderType
  quantity : Nat
  filled_quantity : Nat
  price : ℚ
  stop_price : ℚ
  timestamp : Nat
  status : OrderStatus
deriving DecidableEq, Repr

instance : Inhabited Order :=
  ⟨{ order_id := 0, client_id := 0, symbol := "", side := .BUY, type := .LIMIT,
     quantity := 0, filled_quantity := 0, price := 0, stop_price := 0,
     timestamp := 0, status := .PENDING }⟩

/-- The 7-argument `Order::Order` constructor from `include/order.h`:
`filled_quantity = 0`, `stop_price = 0.0`, `status = PENDING`, and
`timestamp = high_resolution_clock::now()` — the clock read happens at
client-side construction, so the construction time is the explicit
parameter `now`. -/
def Order.construct (id client : Nat) (sym : String) (s : OrderSide)
    (t : OrderType) (qty : Nat) (prc : ℚ) (now : Nat) : Order :=
  { order_id := id, client_id := client, symbol := sym, side := s, type := t,
    quantity := qty, filled_quantity := 0, price := prc, stop_price := 0,
    timestamp := now, status := .PENDING }

/-- The C++ `Order::is_filled`: `filled_quantity >= quantity`. -/
def Order.is_filled (o : Order) : Bool :=
  o.quantity ≤ o.filled_quantity

/-- The C++ `Order::remaining_quantity`: `quantity - filled_quantity` on
`uint64_t`, as truncated `Nat` subtraction.  Identical to the `uint64_t`
result whenever `filled_quantity ≤ quantity`; when `filled_quantity >
quantity` (reachable only through `modify_order` shrinking `quantity`
below an existing fill) the C++ value wraps to a number near `2^64` while
this model yields 0 — per-match statements that depend on this value carry
the `filled_quantity ≤ quantity` hypothesis. -/
def Order.remaining_quantity (o : Order) : Nat :=
  o.quantity - o.filled_quantity

/-- The fields of the C++ `MarketData` struct that `OrderBook::record_trade`
populates for a `MarketDataType::TRADE` event (`include/market_data.h`).
The `type` tag is always `TRADE` for book-recorded trades and is omitted. -/
structure MarketData where
  symbol : String
  trade_price : ℚ
  trade_quantity : Nat
  trade_id : Nat
  timestamp : Nat
deriving DecidableEq, Repr

/-- A price level: all resting orders at one price, as arena indices in
level order (the C++ `std::vector<std::shared_ptr<Order>>`). -/
abbrev Level := List Nat

/-- The `OrderBook` state from `include/order_book.h` (fields of the C++
class), plus the allocation arena `heap` standing for the `shared_ptr`
graph and the ghost field `all_trades` (see the file header).
`bids` is the `std::map<double, vector, std::greater>` as a list of
`(price, level)` pairs in strictly descending price order; `asks` is the
ascending `std::map`; `orders_by_id` is the `std::unordered_map` as an
association list `order_id ↦ arena index` with unique keys. -/
structure OrderBook where
  symbol : String
  heap : List Order
  bids : List (ℚ × Level)
  asks : List (ℚ × Level)
  orders_by_id : List (Nat × Nat)
  recent_trades : List MarketData
  all_trades : List MarketData
  total_orders : Nat
  total_trades : Nat
  total_volume : ℚ
deriving DecidableEq, Repr

/-- The C++ `OrderBook::OrderBook(symbol)`: empty ladders, empty maps, zero
counters. -/
def OrderBook.init (symbol : String) : OrderBook :=
  { symbol := symbol, heap := [], bids := [], asks := [], orders_by_id := [],
    recent_trades := [], all_trades := [], total_orders := 0,
    total_trades := 0, total_volume := 0 }

/-- The C++ `orders_by_id_.find(id)`: first binding for the key (keys are unique in
the C++ `unordered_map`). -/
def idLookup (m : List (Nat × Nat)) (k : Nat) : Option Nat :=
  match m with
  | [] => none
  | (k', v) :: rest => if k' = k then some v else idLookup rest k

/-- The C++ `orders_by_id_.erase(id)`: removes the binding for the key (for
unique-key lists this is exactly `unordered_map::erase`). -/
def idErase (m : List (Nat × Nat)) (k : Nat) : List (Nat × Nat) :=
  m.filter (fun kv => kv.1 ≠ k)

/-- The C++ `MAX_TRADES_HISTORY` from `include/order_book.h`. -/
def MAX_TRADES_HISTORY : Nat := 1000

/-- Mutate the arena entry at index `p` (dereferencing a `shared_ptr` and
assigning through it).  Out-of-range indices leave the arena unchanged
(the C++ code never holds a dangling pointer here). -/
def heapModify (h : List Order) (p : Nat) (f : Order → Order) : List Order :=
  h.set p (f (h.getD p default))

/-- Insert pointer `p` into level `l` keeping the level sorted by order
timestamp: the `std::sort`-by-timestamp in `add_to_bid_level` /
`add_to_ask_level`.  Insertion sort by strict `<` reproduces the unique
sorted order for distinct timestamps (ties are unspecified for
`std::sort`). -/
def insertByTs (h : List Order) (p : Nat) : Level → Level
  | [] => [p]
  | q :: rest =>
      if (h.getD p default).timestamp < (h.getD q default).timestamp then
        p :: q :: rest
      else
        q :: insertByTs h p rest

/-- Sort a level by timestamp (the `std::sort` call in the level insertion
helpers). -/
def sortByTs (h : List Order) : Level → Level
  | [] => []
  | p :: rest => insertByTs h p (sortByTs h rest)

/-- The C++ `OrderBook::add_to_bid_level`: `bids_[price]` (creating an empty level
if absent — the descending `std::map` keeps keys sorted), `push_back`,
then sort the level by timestamp. -/
def addToBidLadder (h : List Order) (price : ℚ) (p : Nat) :
    List (ℚ × Level) → List (ℚ × Level)
  | [] => [(price, sortByTs h [p])]
  | (pr, l) :: rest =>
      if price = pr then (pr, sortByTs h (l ++ [p])) :: rest
      else if pr < price then (price, sortByTs h [p]) :: (pr, l) :: rest
      else (pr, l) :: addToBidLadder h price p rest

/-- The C++ `OrderBook::add_to_ask_level`: as `add_to_bid_level` but the map is
ascending. -/
def addToAskLadder (h : List Order) (price : ℚ) (p : Nat) :
    List (ℚ × Level) → List (ℚ × Level)
  | [] => [(price, sortByTs h [p])]
  | (pr, l) :: rest =>
      if price = pr then (pr, sortByTs h (l ++ [p])) :: rest
      else if price < pr then (price, sortByTs h [p]) :: (pr, l) :: rest
      else (pr, l) :: addToAskLadder h price p rest

/-- The C++ `OrderBook::remove_from_bid_level` / `remove_from_ask_level`: find the
level at `price` (no-op when absent) and `remove_if` every order whose
`order_id` equals `oid`. -/
def removeFromLadder (h : List Order) (price : ℚ) (oid : Nat) :
    List (ℚ × Level) → List (ℚ × Level)
  | [] => []
  | (pr, l) :: rest =>
      if price = pr then
        (pr, l.filter (fun p => (h.getD p default).order_id ≠ oid)) :: rest
      else (pr, l) :: removeFromLadder h price oid rest

/-- The C++ `OrderBook::cleanup_empty_levels`: erase every level whose vector is
empty, on both sides. -/
def cleanup_empty_levels (s : OrderBook) : OrderBook :=
  { s with bids := s.bids.filter (fun lv => ¬ lv.2.isEmpty),
           asks := s.asks.filter (fun lv => ¬ lv.2.isEmpty) }

/-- The C++ `OrderBook::get_best_bid`: `0.0` when the bid side is empty, otherwise
the first (highest) key of the descending map. -/
def get_best_bid (s : OrderBook) : ℚ :=
  match s.bids with
  | [] => 0
  | (p, _) :: _ => p

/-- The C++ `OrderBook::get_best_ask`: `0.0` when the ask side is empty, otherwise
the first (lowest) key of the ascending map. -/
def get_best_ask (s : OrderBook) : ℚ :=
  match s.asks with
  | [] => 0
  | (p, _) :: _ => p

/-- The C++ `OrderBook::get_total_volume`. -/
def get_total_volume (s : OrderBook) : ℚ :=
  s.total_volume

/-- The C++ `OrderBook::get_trade_count`. -/
def get_trade_count (s : OrderBook) : Nat :=
  s.total_trades

/-- The C++ `OrderBook::record_trade`: build a TRADE record with
`trade_id = total_trades_ + 1`, append to `recent_trades_`, evict the
oldest entry beyond `MAX_TRADES_HISTORY`, bump `total_trades_`, and add
`price * quantity` to `total_volume_`.  The ghost `all_trades` receives the
same record without eviction. -/
def record_trade (s : OrderBook) (price : ℚ) (quantity : Nat) : OrderBook :=
  let t : MarketData :=
    { symbol := s.symbol, trade_price := price, trade_quantity := quantity,
      trade_id := s.total_trades + 1, timestamp := 0 }
  let rt := s.recent_trades ++ [t]
  let rt := if MAX_TRADES_HISTORY < rt.length then rt.tail else rt
  { s with recent_trades := rt,
           all_trades := s.all_trades ++ [t],
           total_trades := s.total_trades + 1,
           total_volume := s.total_volume + price * quantity }

/-- The continuation condition of the `while` loop in
`OrderBook::match_orders`: both maps non-empty, not `best_bid < best_ask`
(i.e. `best_ask ≤ best_bid`), and neither best-price vector empty (the two
`break`s in the loop body). -/
def matchCond (s : OrderBook) : Bool :=
  match s.bids, s.asks with
  | (pb, lb) :: _, (pa, la) :: _ =>
      decide (pa ≤ pb) && !lb.isEmpty && !la.isEmpty
  | _, _ => false

/-- The C++ `match_quantity` of one matching iteration:
`std::min(buy->remaining_quantity(), sell->remaining_quantity())` for the
orders at arena indices `bPtr`, `sPtr`. -/
def matchQty (heap : List Order) (bPtr sPtr : Nat) : Nat :=
  min (heap.getD bPtr default).remaining_quantity
    (heap.getD sPtr default).remaining_quantity

/-- The C++ `buy_order->filled_quantity += match_quantity;
sell_order->filled_quantity += match_quantity;` — the two in-place
increments through the shared pointers (sequential, so pointer aliasing
behaves as in C++). -/
def matchFill (heap : List Order) (bPtr sPtr : Nat) : List Order :=
  let q := matchQty heap bPtr sPtr
  heapModify (heapModify heap bPtr
    (fun o => { o with filled_quantity := o.filled_quantity + q })) sPtr
    (fun o => { o with filled_quantity := o.filled_quantity + q })

/-- The C++ `buy_order->is_filled()` as evaluated after the two increments. -/
def buyFilledAfter (heap : List Order) (bPtr sPtr : Nat) : Bool :=
  ((matchFill heap bPtr sPtr).getD bPtr default).is_filled

/-- The C++ `sell_order->is_filled()` as evaluated after the two increments. -/
def sellFilledAfter (heap : List Order) (bPtr sPtr : Nat) : Bool :=
  ((matchFill heap bPtr sPtr).getD sPtr default).is_filled

/-- One iteration of the `while` loop in `OrderBook::match_orders`:
take the FIFO heads of the best bid and best ask levels, trade
`min(remaining, remaining)` at the midpoint `(best_bid + best_ask) / 2`,
record the trade, increment both `filled_quantity`s through the shared
pointers, unlink orders that are now filled from their level and from
`orders_by_id_` (decrementing `total_orders_`), and drop a best level that
became empty.  (`record_trade` does not touch the arena, so the increments
are applied to `s.heap` directly.)  When the loop condition does not hold
the state is returned unchanged (the iteration is never entered). -/
def matchStep (s : OrderBook) : OrderBook :=
  match s.bids, s.asks with
  | (pb, bPtr :: lbTail) :: restB, (pa, sPtr :: laTail) :: restA =>
      let buy := s.heap.getD bPtr default
      let sell := s.heap.getD sPtr default
      let match_price := (pb + pa) / 2
      let match_quantity := matchQty s.heap bPtr sPtr
      let s1 := record_trade s match_price match_quantity
      let heap2 := matchFill s.heap bPtr sPtr
      let buyFilled := buyFilledAfter s.heap bPtr sPtr
      let sellFilled := sellFilledAfter s.heap bPtr sPtr
      let lb2 := if buyFilled then lbTail else bPtr :: lbTail
      let la2 := if sellFilled then laTail else sPtr :: laTail
      let ids1 := if buyFilled then idErase s1.orders_by_id buy.order_id
                  else s1.orders_by_id
      let ids2 := if sellFilled then idErase ids1 sell.order_id else ids1
      let to1 := if buyFilled then s1.total_orders - 1 else s1.total_orders
      let to2 := if sellFilled then to1 - 1 else to1
      { s1 with heap := heap2,
                bids := if lb2.isEmpty then restB else (pb, lb2) :: restB,
                asks := if la2.isEmpty then restA else (pa, la2) :: restA,
                orders_by_id := ids2,
                total_orders := to2 }
  | _, _ => s

/-- The total number of resting-order slots across both ladders; each
iteration of the matching loop removes at least one, so this bounds the
iteration count of `match_orders`. -/
def ladderSize (s : OrderBook) : Nat :=
  (s.bids.map (fun lv => lv.2.length)).sum +
    (s.asks.map (fun lv => lv.2.length)).sum

/-- The `while` loop of `OrderBook::match_orders`, with an explicit
iteration bound. -/
def matchLoop : Nat → OrderBook → OrderBook
  | 0, s => s
  | fuel + 1, s => if matchCond s then matchLoop fuel (matchStep s) else s

/-- The C++ `OrderBook::match_orders`: run the loop to completion.  `ladderSize`
iterations always suffice, because each iteration whose condition holds
strictly decreases `ladderSize` (proved in `matchStep_ladderSize_lt`). -/
def match_orders (s : OrderBook) : OrderBook :=
  matchLoop (ladderSize s) s

/-- The C++ `OrderBook::process_market_order`: comments the order needs no storing
and only calls `match_orders()` (the order was in fact already stored by
`add_order`). -/
def process_market_order (s : OrderBook) : OrderBook :=
  match_orders s

/-- The C++ `OrderBook::process_limit_order`: just calls `match_orders()`. -/
def process_limit_order (s : OrderBook) : OrderBook :=
  match_orders s

/-- The C++ `OrderBook::add_order`.  Returns `(result, state)`.  Rejects on symbol
mismatch or duplicate `order_id` (a null `shared_ptr` cannot be modeled and
cannot be built by the embedding).  On acceptance: store the order in the
arena and in `orders_by_id_`, insert it into the correct price ladder at
`order->price`, bump `total_orders_`, run `process_market_order` or
`process_limit_order` by type, then call `match_orders()` once more, and
return `true`.  No field of the order (quantity, price, timestamp, status)
is validated or assigned. -/
def add_order (s : OrderBook) (order : Order) : Bool × OrderBook :=
  if order.symbol ≠ s.symbol then (false, s)
  else if (idLookup s.orders_by_id order.order_id).isSome then (false, s)
  else
    let ptr := s.heap.length
    let s1 := { s with heap := s.heap ++ [order],
                       orders_by_id := s.orders_by_id ++ [(order.order_id, ptr)] }
    let s2 :=
      if order.side = OrderSide.BUY then
        { s1 with bids := addToBidLadder s1.heap order.price ptr s1.bids }
      else
        { s1 with asks := addToAskLadder s1.heap order.price ptr s1.asks }
    let s3 := { s2 with total_orders := s2.total_orders + 1 }
    let s4 :=
      if order.type = OrderType.MARKET then process_market_order s3
      else process_limit_order s3
    (true, match_orders s4)

/-- The C++ `OrderBook::cancel_order`.  Returns `(result, state)`.  `false` when the
id is not in `orders_by_id_`; otherwise removes the order from its price
level, erases it from `orders_by_id_`, sets its status to `CANCELLED`
through the shared pointer, decrements `total_orders_`, cleans up empty
levels, and returns `true`. -/
def cancel_order (s : OrderBook) (oid : Nat) : Bool × OrderBook :=
  match idLookup s.orders_by_id oid with
  | none => (false, s)
  | some ptr =>
      let order := s.heap.getD ptr default
      let s1 :=
        if order.side = OrderSide.BUY then
          { s with bids := removeFromLadder s.heap order.price oid s.bids }
        else
          { s with asks := removeFromLadder s.heap order.price oid s.asks }
      let s2 := { s1 with orders_by_id := idErase s1.orders_by_id oid }
      let h3 := heapModify s2.heap ptr
        (fun o => { o with status := OrderStatus.CANCELLED })
      let s3 := { s2 with heap := h3 }
      let s4 := { s3 with total_orders := s3.total_orders - 1 }
      (true, cleanup_empty_levels s4)

/-- The C++ `OrderBook::modify_order`.  `false` when the id is unknown; otherwise
removes the order from its current level, overwrites quantity, price and
timestamp (`timestamp = now()`, the refresh clock read, passed as `now`),
re-inserts at the new price, runs `match_orders`, cleans up empty levels,
and returns `true`. -/
def modify_order (s : OrderBook) (oid newQty : Nat) (newPrice : ℚ)
    (now : Nat) : Bool × OrderBook :=
  match idLookup s.orders_by_id oid with
  | none => (false, s)
  | some ptr =>
      let order := s.heap.getD ptr default
      let s1 :=
        if order.side = OrderSide.BUY then
          { s with bids := removeFromLadder s.heap order.price oid s.bids }
        else
          { s with asks := removeFromLadder s.heap order.price oid s.asks }
      let h2 := heapModify s1.heap ptr
        (fun o => { o with quantity := newQty, price := newPrice,
                           timestamp := now })
      let s2 := { s1 with heap := h2 }
      let order1 := s2.heap.getD ptr default
      let s3 :=
        if order1.side = OrderSide.BUY then
          { s2 with bids := addToBidLadder s2.heap order1.price ptr s2.bids }
        else
          { s2 with asks := addToAskLadder s2.heap order1.price ptr s2.asks }
      let s4 := match_orders s3
      (true, cleanup_empty_levels s4)

/-- A public mutating `OrderBook` operation (the API surface of §4.2). -/
inductive BookOp where
  | add (order : Order)
  | cancel (oid : Nat)
  | modify (oid newQty : Nat) (newPrice : ℚ) (now : Nat)

/-- Apply a sequence of public operations to a book. -/
def runOps (ops : List BookOp) (s : OrderBook) : OrderBook :=
  match ops with
  | [] => s
  | op :: rest =>
      let s' := match op with
        | .add o => (add_order s o).2
        | .cancel oid => (cancel_order s oid).2
        | .modify oid q p now => (modify_order s oid q p now).2
      runOps rest s'

/-! ## Lock-free ring buffer (`include/ring_buffer.h`)

Single-threaded semantics of `LockFreeRingBuffer<T, Size>`: the claims about
it concern sequences of calls with no interleaving, where the relaxed /
acquire / release atomics are plain reads and writes.  `Size` is a template
parameter with `static_assert(Size > 0 && ((Size & (Size - 1)) == 0))`, and
`MASK = Size - 1`. -/

/-- The state of a `LockFreeRingBuffer<α, Size>`: the storage array and the
`head_` / `tail_` indices. -/
structure LockFreeRingBuffer (α : Type) (Size : Nat) where
  buffer : List α
  head : Nat
  tail : Nat
deriving DecidableEq, Repr

namespace LockFreeRingBuffer

variable {α : Type} {Size : Nat}

/-- A default-constructed buffer: `head_ = tail_ = 0`, storage
default-initialized to `a`. -/
def init (α : Type) (Size : Nat) (a : α) : LockFreeRingBuffer α Size :=
  { buffer := List.replicate Size a, head := 0, tail := 0 }

/-- The C++ `try_push`: compute `next_tail = (tail + 1) & MASK`; fail (full) when it
equals `head`, otherwise write the item at `tail` and advance `tail`. -/
def try_push (rb : LockFreeRingBuffer α Size) (item : α) :
    Bool × LockFreeRingBuffer α Size :=
  let next_tail := Nat.land (rb.tail + 1) (Size - 1)
  if next_tail = rb.head then (false, rb)
  else (true, { rb with buffer := rb.buffer.set rb.tail item,
                        tail := next_tail })

/-- The C++ `try_pop`: fail (empty) when `head == tail`, otherwise read the item at
`head` and advance `head` by `(head + 1) & MASK`. -/
def try_pop [Inhabited α] (rb : LockFreeRingBuffer α Size) :
    Option α × LockFreeRingBuffer α Size :=
  if rb.head = rb.tail then (none, rb)
  else (some (rb.buffer.getD rb.head default),
        { rb with head := Nat.land (rb.head + 1) (Size - 1) })

/-- The C++ `full`: `(tail + 1) & MASK == head`. -/
def full (rb : LockFreeRingBuffer α Size) : Bool :=
  Nat.land (rb.tail + 1) (Size - 1) = rb.head

/-- The C++ `empty`: `head == tail`. -/
def isEmpty (rb : LockFreeRingBuffer α Size) : Bool :=
  rb.head = rb.tail

/-- Runs `n` consecutive `try_push` calls of the same item, returning the final
buffer and the number of calls that returned `true`. -/
def pushRepeat (item : α) : Nat → LockFreeRingBuffer α Size →
    LockFreeRingBuffer α Size × Nat
  | 0, rb => (rb, 0)
  | n + 1, rb =>
      let r := try_push rb item
      let rest := pushRepeat item n r.2
      (rest.1, (if r.1 then 1 else 0) + rest.2)

end LockFreeRingBuffer

/-! ## Engine performance metrics (`include/order_matching_engine.h`,
`OrderMatchingEngine` in the implementation file)

The embedding covers every function in the repository that writes to the
engine's `PerformanceMetrics metrics_`:
`process_order_batch` (increments `orders_processed` per accepted order),
`process_market_data_batch` (increments `market_data_updates` per item),
`update_performance_metrics` (latency sum / min / max),
`calculate_throughput_metrics` (the metrics thread's per-second deltas,
whose `static` locals are part of the state), and
`PerformanceMetrics::reset` (via `reset_performance_metrics`).
No function in the repository ever writes `trades_executed` other than
`reset` (verified over the whole source tree: the only other accesses are
`.load()`s). -/

/-- The C++ `struct PerformanceMetrics`.  `min_latency_ns` starts at `UINT64_MAX`. -/
structure PerformanceMetrics where
  orders_processed : Nat
  trades_executed : Nat
  market_data_updates : Nat
  total_latency_ns : Nat
  max_latency_ns : Nat
  min_latency_ns : Nat
  orders_per_second : Nat
  trades_per_second : Nat
  market_data_per_second : Nat
deriving DecidableEq, Repr

/-- The C++ `UINT64_MAX`. -/
def UINT64_MAX : Nat := 2 ^ 64 - 1

/-- The initial (value-initialized) metrics. -/
def PerformanceMetrics.start : PerformanceMetrics :=
  { orders_processed := 0, trades_executed := 0, market_data_updates := 0,
    total_latency_ns := 0, max_latency_ns := 0, min_latency_ns := UINT64_MAX,
    orders_per_second := 0, trades_per_second := 0,
    market_data_per_second := 0 }

/-- The C++ `PerformanceMetrics::reset`. -/
def PerformanceMetrics.resetAll (_ : PerformanceMetrics) : PerformanceMetrics :=
  PerformanceMetrics.start

/-- Engine-side metrics state: the metrics struct plus the `static` locals
of `calculate_throughput_metrics` (`last_orders`, `last_trades`,
`last_market_data`). -/
structure EngineMetricsState where
  metrics : PerformanceMetrics
  last_orders : Nat
  last_trades : Nat
  last_market_data : Nat
deriving DecidableEq, Repr

/-- Engine start-up metrics state (statics zero-initialized). -/
def EngineMetricsState.start : EngineMetricsState :=
  { metrics := PerformanceMetrics.start, last_orders := 0, last_trades := 0,
    last_market_data := 0 }

/-- One metrics-mutating step of the engine, one constructor per source
site that writes `metrics_` (see the section header). -/
inductive MetricsEvent where
  | orderProcessed (accepted : Bool)
  | marketDataUpdate
  | latencySample (ns : Nat)
  | throughputTick
  | resetMetrics

/-- Apply one metrics-mutating step, exactly as the corresponding source
function updates `metrics_`.  `throughputTick` is
`calculate_throughput_metrics`: it stores `counter - last` into the
per-second gauge and saves `counter` into the static. -/
def metricsStep (st : EngineMetricsState) (e : MetricsEvent) :
    EngineMetricsState :=
  match e with
  | .orderProcessed accepted =>
      if accepted then
        { st with metrics := { st.metrics with
            orders_processed := st.metrics.orders_processed + 1 } }
      else st
  | .marketDataUpdate =>
      { st with metrics := { st.metrics with
          market_data_updates := st.metrics.market_data_updates + 1 } }
  | .latencySample ns =>
      { st with metrics := { st.metrics with
          total_latency_ns := st.metrics.total_latency_ns + ns,
          min_latency_ns := min st.metrics.min_latency_ns ns,
          max_latency_ns := max st.metrics.max_latency_ns ns } }
  | .throughputTick =>
      { metrics := { st.metrics with
          orders_per_second := st.metrics.orders_processed - st.last_orders,
          trades_per_second := st.metrics.trades_executed - st.last_trades,
          market_data_per_second :=
            st.metrics.market_data_updates - st.last_market_data },
        last_orders := st.metrics.orders_processed,
        last_trades := st.metrics.trades_executed,
        last_market_data := st.metrics.market_data_updates }
  | .resetMetrics =>
      { st with metrics := st.metrics.resetAll }

/-- Run a sequence of metrics-mutating steps. -/
def runMetrics (evs : List MetricsEvent) (st : EngineMetricsState) :
    EngineMetricsState :=
  match evs with
  | [] => st
  | e :: rest => runMetrics rest (metricsStep st e)

/-! ## Spec-side predicates -/

/-- No retained empty price level on either side (spec §3, OrderBook
invariant 2). -/
def NoEmptyLevels (s : OrderBook) : Bool :=
  s.bids.all (fun lv => !lv.2.isEmpty) && s.asks.all (fun lv => !lv.2.isEmpty)

/-- The book is not crossed: either side empty, or
`best_bid < best_ask` (spec §3, OrderBook invariant 4 / claim C6). -/
def Uncrossed (s : OrderBook) : Prop :=
  s.bids = [] ∨ s.asks = [] ∨ get_best_bid s < get_best_ask s

instance (s : OrderBook) : Decidable (Uncrossed s) := by
  unfold Uncrossed; infer_instance

/-- Modelled from the spec (§4.2 matching step 4–5): the trade record a
single matching iteration should append — quantity
`min(buy.remaining, sell.remaining)` of the two FIFO heads, priced at the
midpoint of the best bid and best ask, with `trade_id = trade_count + 1`.
Used to compare the code's `matchStep` against the spec's words. -/
def midpointTrade (s : OrderBook) : MarketData :=
  let bPtr := (s.bids.headD (0, [])).2.headD 0
  let sPtr := (s.asks.headD (0, [])).2.headD 0
  { symbol := s.symbol,
    trade_price := (get_best_bid s + get_best_ask s) / 2,
    trade_quantity := min (s.heap.getD bPtr default).remaining_quantity
      (s.heap.getD sPtr default).remaining_quantity,
    trade_id := s.total_trades + 1,
    timestamp := 0 }

/-- Sum of `trade_price × trade_quantity` over a trade list (spec §3,
OrderBook invariant 5). -/
def tradeSum (ts : List MarketData) : ℚ :=
  (ts.map (fun t => t.trade_price * (t.trade_quantity : ℚ))).sum

/-- Scenario S1 of the spec, order 1: `BUY 100 @ 150.00`, constructed at
(client-side) time 10. -/
def buyOrderS1 : Order :=
  Order.construct 1 0 "AAPL" OrderSide.BUY OrderType.LIMIT 100 150 10

/-- Scenario S1 of the spec, order 2: `SELL 100 @ 149.00`, constructed at
time 20. -/
def sellOrderS1 : Order :=
  Order.construct 2 0 "AAPL" OrderSide.SELL OrderType.LIMIT 100 149 20

/-- Scenario S1: submit the two orders to a fresh book. -/
def bookS1 : OrderBook :=
  runOps [BookOp.add buyOrderS1, BookOp.add sellOrderS1]
    (OrderBook.init "AAPL")

/-- A concrete crossed book the matching loop is about to act on:
a resting `BUY 100 @ 150` (arena index 0, id 1, unfilled) against a
resting `SELL 40 @ 149` (arena index 1, id 2, unfilled). -/
def crossedBook : OrderBook :=
  { symbol := "AAPL",
    heap := [Order.construct 1 0 "AAPL" OrderSide.BUY OrderType.LIMIT
        100 150 10,
      Order.construct 2 0 "AAPL" OrderSide.SELL OrderType.LIMIT 40 149 20],
    bids := [(150, [0])], asks := [(149, [1])],
    orders_by_id := [(1, 0), (2, 1)],
    recent_trades := [], all_trades := [], total_orders := 2,
    total_trades := 0, total_volume := 0 }

/-- A book holding exactly one resting order (`buyOrderS1`). -/
def bookOne : OrderBook :=
  (add_order (OrderBook.init "AAPL") buyOrderS1).2

/-- The MARKET buy order of the "MARKET order against empty opposite side"
boundary behavior (spec §8), price field 0. -/
def mktBuy : Order :=
  Order.construct 1 0 "AAPL" OrderSide.BUY OrderType.MARKET 100 0 5

/-- The single trade that scenario S1 records, with its price written as
the unevaluated midpoint expression the code computes. -/
def tradeS1 : MarketData :=
  { symbol := "AAPL", trade_price := ((150 : ℚ) + 149) / 2,
    trade_quantity := 100, trade_id := 1, timestamp := 0 }

/-- An ill-formed order per the spec: LIMIT with quantity 0. -/
def zqOrder : Order :=
  Order.construct 1 7 "AAPL" OrderSide.BUY OrderType.LIMIT 0 10 5

/-- The book that results from submitting the ill-formed `zqOrder` to a
fresh book. -/
def zqBook : OrderBook :=
  (add_order (OrderBook.init "AAPL") zqOrder).2

/-- The cumulative-volume invariant (spec §3, invariant 5). -/
def VolInv (s : OrderBook) : Prop :=
  get_total_volume s = tradeSum s.all_trades

/-- Invariant of every engine execution: all trade-related metrics stay
zero (nothing ever increments `trades_executed`). -/
def TradesZero (st : EngineMetricsState) : Prop :=
  st.metrics.trades_executed = 0 ∧ st.last_trades = 0 ∧
    st.metrics.trades_per_second = 0

/-! ## Helper lemmas -/

theorem idLookup_erase_self (m : List (Nat × Nat)) (k : Nat) :
    idLookup (idErase m k) k = none := by
  induction m with
  | nil => rfl
  | cons kv rest ih =>
      by_cases h : kv.1 = k
      · simpa [idErase, idLookup, h] using ih
      · simpa [idErase, idLookup, h] using ih

theorem idLookup_erase_other (m : List (Nat × Nat)) (k k' : Nat)
    (h : k' ≠ k) : idLookup (idErase m k) k' = idLookup m k' := by
  induction m with
  | nil => rfl
  | cons kv rest ih =>
      rcases kv with ⟨a, v⟩
      by_cases hk : a = k
      · subst hk
        simp [idErase, idLookup, Ne.symm h] at ih ⊢
        exact ih
      · by_cases hk' : a = k'
        · subst hk'
          simp [idErase, idLookup, hk]
        · simp [idErase, idLookup, hk, hk'] at ih ⊢
          exact ih

theorem getD_set_self (l : List Order) (p : Nat) (a : Order)
    (hp : p < l.length) : (l.set p a).getD p default = a := by
  induction l generalizing p with
  | nil => simp at hp
  | cons x xs ih =>
      cases p with
      | zero => rfl
      | succ n =>
          simp only [List.length_cons, Nat.succ_lt_succ_iff] at hp
          simpa [List.set, List.getD] using ih n hp

theorem getD_set_other (l : List Order) (p q : Nat) (a : Order)
    (hq : q ≠ p) : (l.set p a).getD q default = l.getD q default := by
  induction l generalizing p q with
  | nil => rfl
  | cons x xs ih =>
      cases p with
      | zero =>
          cases q with
          | zero => exact absurd rfl hq
          | succ m => rfl
      | succ n =>
          cases q with
          | zero => rfl
          | succ m =>
              have : m ≠ n := fun h => hq (by rw [h])
              simpa [List.set, List.getD] using ih n m this

theorem getD_set_oob (l : List Order) (p q : Nat) (a : Order)
    (hp : l.length ≤ p) : (l.set p a).getD q default = l.getD q default := by
  rw [List.set_eq_of_length_le hp]

theorem heapModify_length (h : List Order) (p : Nat) (f : Order → Order) :
    (heapModify h p f).length = h.length := by
  simp [heapModify]

theorem heapModify_getD_same (h : List Order) (p : Nat) (f : Order → Order)
    (hp : p < h.length) :
    (heapModify h p f).getD p default = f (h.getD p default) := by
  simpa [heapModify] using getD_set_self h p _ hp

theorem heapModify_getD_other (h : List Order) (p q : Nat)
    (f : Order → Order) (hq : q ≠ p) :
    (heapModify h p f).getD q default = h.getD q default := by
  simpa [heapModify] using getD_set_other h p q _ hq

theorem heapModify_getD_oob (h : List Order) (p q : Nat)
    (f : Order → Order) (hp : h.length ≤ p) :
    (heapModify h p f).getD q default = h.getD q default := by
  simpa [heapModify] using getD_set_oob h p q _ hp

theorem insertByTs_length (h : List Order) (p : Nat) (l : Level) :
    (insertByTs h p l).length = l.length + 1 := by
  induction l with
  | nil => rfl
  | cons q rest ih =>
      simp only [insertByTs]
      split
      · simp
      · simp [ih]

theorem sortByTs_length (h : List Order) (l : Level) :
    (sortByTs h l).length = l.length := by
  induction l with
  | nil => rfl
  | cons p rest ih => simp [sortByTs, insertByTs_length, ih]

theorem sortByTs_ne_nil (h : List Order) (l : Level) (hl : l ≠ []) :
    sortByTs h l ≠ [] := by
  intro hcon
  have := sortByTs_length h l
  rw [hcon] at this
  exact hl (List.length_eq_zero.mp this.symm)

theorem getD_oob (l : List Order) (p : Nat) (hp : l.length ≤ p) :
    l.getD p default = default := by
  simp [List.getD, List.getElem?_eq_none hp]

theorem matchCond_shape (s : OrderBook) (h : matchCond s = true) :
    ∃ pb bPtr lbT restB pa sPtr laT restA,
      s.bids = (pb, bPtr :: lbT) :: restB ∧
        s.asks = (pa, sPtr :: laT) :: restA ∧ pa ≤ pb := by
  unfold matchCond at h
  rcases hb : s.bids with _ | ⟨⟨pb, lb⟩, restB⟩ <;> rw [hb] at h
  · simp at h
  rcases ha : s.asks with _ | ⟨⟨pa, la⟩, restA⟩ <;> rw [ha] at h
  · simp at h
  rcases lb with _ | ⟨bPtr, lbT⟩
  · simp at h
  rcases la with _ | ⟨sPtr, laT⟩
  · simp at h
  refine ⟨pb, bPtr, lbT, restB, pa, sPtr, laT, restA, rfl, rfl, ?_⟩
  simp at h
  exact h

theorem matchFill_length (heap : List Order) (bPtr sPtr : Nat) :
    (matchFill heap bPtr sPtr).length = heap.length := by
  simp [matchFill, heapModify_length]

/-- After the two `filled_quantity` increments of one matching iteration, at
least one of the two counterparties satisfies `is_filled` — this is what
makes the `while` loop of `match_orders` terminate. -/
theorem matchStep_one_filled (heap : List Order) (bPtr sPtr : Nat) :
    buyFilledAfter heap bPtr sPtr = true ∨
      sellFilledAfter heap bPtr sPtr = true := by
  set buy := heap.getD bPtr default with hbuy
  set sell := heap.getD sPtr default with hsell
  set q := matchQty heap bPtr sPtr with hq
  have hqdef : q = min buy.remaining_quantity sell.remaining_quantity := rfl
  set heap1 := heapModify heap bPtr
    (fun o => { o with filled_quantity := o.filled_quantity + q }) with hh1
  have hfill : matchFill heap bPtr sPtr = heapModify heap1 sPtr
      (fun o => { o with filled_quantity := o.filled_quantity + q }) := rfl
  have hlen1 : heap1.length = heap.length := heapModify_length _ _ _
  have hlen2 : (matchFill heap bPtr sPtr).length = heap.length :=
    matchFill_length _ _ _
  unfold buyFilledAfter sellFilledAfter
  by_cases hbp : bPtr < heap.length
  · by_cases hsp : sPtr < heap.length
    · by_cases heq : sPtr = bPtr
      · left
        subst heq
        have hbs : sell = buy := by rw [hsell, hbuy]
        have h1 : heap1.getD sPtr default =
            { buy with filled_quantity := buy.filled_quantity + q } :=
          heapModify_getD_same _ _ _ hbp
        have h2 : (matchFill heap sPtr sPtr).getD sPtr default =
            { buy with filled_quantity := buy.filled_quantity + q + q } := by
          rw [hfill]
          have := heapModify_getD_same heap1 sPtr
            (fun o => { o with filled_quantity := o.filled_quantity + q })
            (by rw [hlen1]; exact hbp)
          rw [h1] at this
          exact this
        rw [h2]
        simp only [Order.is_filled, decide_eq_true_eq]
        rw [hbs] at hqdef
        simp only [Order.remaining_quantity, Nat.min_self] at hqdef
        omega
      · have h1 : heap1.getD bPtr default =
            { buy with filled_quantity := buy.filled_quantity + q } :=
          heapModify_getD_same _ _ _ hbp
        have h1s : heap1.getD sPtr default = sell :=
          heapModify_getD_other _ _ _ _ heq
        have h2b : (matchFill heap bPtr sPtr).getD bPtr default =
            { buy with filled_quantity := buy.filled_quantity + q } := by
          rw [hfill, ← h1]
          exact heapModify_getD_other _ _ _ _ (fun hh => heq hh.symm)
        have h2s : (matchFill heap bPtr sPtr).getD sPtr default =
            { sell with filled_quantity := sell.filled_quantity + q } := by
          rw [hfill]
          have := heapModify_getD_same heap1 sPtr
            (fun o => { o with filled_quantity := o.filled_quantity + q })
            (by rw [hlen1]; exact hsp)
          rw [h1s] at this
          exact this
        rw [h2b, h2s]
        simp only [Order.is_filled, decide_eq_true_eq]
        simp only [Order.remaining_quantity] at hqdef
        rcases Nat.le_total (buy.quantity - buy.filled_quantity)
            (sell.quantity - sell.filled_quantity) with hle | hle
        · left
          omega
        · right
          omega
    · right
      have : (matchFill heap bPtr sPtr).getD sPtr default = default := by
        apply getD_oob
        rw [hlen2]
        omega
      rw [this]
      rfl
  · left
    have hb2 : (matchFill heap bPtr sPtr).getD bPtr default = default := by
      apply getD_oob
      rw [hlen2]
      omega
    rw [hb2]
    rfl

theorem sum_levels_ite (p : ℚ) (l : Level) (rest : List (ℚ × Level)) :
    (((if l.isEmpty then rest else (p, l) :: rest)).map
        (fun lv => lv.2.length)).sum =
      l.length + ((rest.map (fun lv => lv.2.length)).sum) := by
  by_cases h : l.isEmpty
  · rw [if_pos h]
    rw [List.isEmpty_iff] at h
    simp [h]
  · rw [if_neg h]
    simp

/-- Each entered iteration of `match_orders` strictly shrinks the total
number of resting-order slots in the ladders. -/
theorem matchStep_ladderSize_lt (s : OrderBook) (h : matchCond s = true) :
    ladderSize (matchStep s) < ladderSize s := by
  obtain ⟨pb, bPtr, lbT, restB, pa, sPtr, laT, restA, hb, ha, _⟩ :=
    matchCond_shape s h
  have hone := matchStep_one_filled s.heap bPtr sPtr
  unfold ladderSize matchStep
  rw [hb, ha]
  simp only [record_trade, List.map_cons, List.sum_cons]
  rw [sum_levels_ite, sum_levels_ite]
  rcases hone with hone | hone
  · rw [hone]
    rcases Bool.eq_false_or_eq_true (sellFilledAfter s.heap bPtr sPtr) with
      hsf | hsf <;> rw [hsf] <;> simp <;> omega
  · rw [hone]
    rcases Bool.eq_false_or_eq_true (buyFilledAfter s.heap bPtr sPtr) with
      hbf | hbf <;> rw [hbf] <;> simp <;> omega

theorem matchCond_ladderSize_pos (s : OrderBook) (h : matchCond s = true) :
    0 < ladderSize s := by
  obtain ⟨pb, bPtr, lbT, restB, pa, sPtr, laT, restA, hb, ha, _⟩ :=
    matchCond_shape s h
  unfold ladderSize
  rw [hb, ha]
  simp

theorem isEmpty_false_of_ne_nil (l : Level) (h : l ≠ []) :
    l.isEmpty = false := by
  cases l with
  | nil => exact absurd rfl h
  | cons x xs => rfl

/-- One matching iteration never leaves an empty price level behind: it
only drains the two best levels and drops them as soon as they empty. -/
theorem matchStep_noEmpty (s : OrderBook) (h : matchCond s = true)
    (hne : NoEmptyLevels s = true) : NoEmptyLevels (matchStep s) = true := by
  obtain ⟨pb, bPtr, lbT, restB, pa, sPtr, laT, restA, hb, ha, _⟩ :=
    matchCond_shape s h
  rw [NoEmptyLevels, hb, ha] at hne
  simp only [List.all_cons, Bool.and_eq_true] at hne
  unfold matchStep NoEmptyLevels
  rw [hb, ha]
  simp only [Bool.and_eq_true]
  constructor
  · by_cases hE : ((if buyFilledAfter s.heap bPtr sPtr = true then lbT
        else bPtr :: lbT) : Level).isEmpty = true
    · simp only [if_pos hE]
      exact hne.1.2
    · simp only [if_neg hE, List.all_cons, Bool.and_eq_true]
      refine ⟨?_, hne.1.2⟩
      simp only [Bool.not_eq_true] at hE
      simp [hE]
  · by_cases hE : ((if sellFilledAfter s.heap bPtr sPtr = true then laT
        else sPtr :: laT) : Level).isEmpty = true
    · simp only [if_pos hE]
      exact hne.2.2
    · simp only [if_neg hE, List.all_cons, Bool.and_eq_true]
      refine ⟨?_, hne.2.2⟩
      simp only [Bool.not_eq_true] at hE
      simp [hE]

/-- When the loop condition fails on a book without retained empty levels,
the book is uncrossed. -/
theorem matchCond_false_uncrossed (s : OrderBook)
    (hne : NoEmptyLevels s = true) (h : matchCond s = false) : Uncrossed s := by
  unfold Uncrossed
  rcases hb : s.bids with _ | ⟨⟨pb, lb⟩, restB⟩
  · exact Or.inl rfl
  rcases ha : s.asks with _ | ⟨⟨pa, la⟩, restA⟩
  · exact Or.inr (Or.inl rfl)
  refine Or.inr (Or.inr ?_)
  rw [NoEmptyLevels, hb, ha] at hne
  simp only [List.all_cons, Bool.and_eq_true, Bool.not_eq_true'] at hne
  rw [matchCond, hb, ha] at h
  simp only [Bool.and_eq_false_iff, decide_eq_false_iff_not, not_le,
    Bool.not_eq_false] at h
  unfold get_best_bid get_best_ask
  rw [hb, ha]
  rcases h with (h | h) | h
  · exact h
  · rw [hne.1.1] at h
    simp at h
  · rw [hne.2.1] at h
    simp at h

theorem matchLoop_post (fuel : Nat) :
    ∀ s : OrderBook, ladderSize s ≤ fuel → NoEmptyLevels s = true →
      matchCond (matchLoop fuel s) = false ∧
        NoEmptyLevels (matchLoop fuel s) = true := by
  induction fuel with
  | zero =>
      intro s hsz hne
      refine ⟨?_, hne⟩
      show matchCond s = false
      by_cases hc : matchCond s = true
      · have := matchCond_ladderSize_pos s hc
        omega
      · simpa using hc
  | succ n ih =>
      intro s hsz hne
      rw [matchLoop]
      by_cases hc : matchCond s = true
      · rw [if_pos hc]
        have hlt := matchStep_ladderSize_lt s hc
        exact ih (matchStep s) (by omega) (matchStep_noEmpty s hc hne)
      · rw [if_neg hc]
        exact ⟨by simpa using hc, hne⟩

/-- The C++ `match_orders` on a book with no retained empty levels: the loop runs to
quiescence, leaving an uncrossed book that again has no empty levels. -/
theorem match_orders_spec (s : OrderBook) (hne : NoEmptyLevels s = true) :
    Uncrossed (match_orders s) ∧ NoEmptyLevels (match_orders s) = true := by
  have h := matchLoop_post (ladderSize s) s (le_refl _) hne
  exact ⟨matchCond_false_uncrossed _ h.2 h.1, h.2⟩

theorem addToBidLadder_noEmpty (h : List Order) (price : ℚ) (p : Nat)
    (m : List (ℚ × Level)) (hm : m.all (fun lv => !lv.2.isEmpty) = true) :
    (addToBidLadder h price p m).all (fun lv => !lv.2.isEmpty) = true := by
  have hsingle : ((sortByTs h [p] : Level).isEmpty) = false :=
    isEmpty_false_of_ne_nil _ (sortByTs_ne_nil h [p] (by simp))
  induction m with
  | nil =>
      simp [addToBidLadder, hsingle]
  | cons lv rest ih =>
      rcases lv with ⟨pr, l⟩
      simp only [List.all_cons, Bool.and_eq_true] at hm
      by_cases h1 : price = pr
      · have hmerge : ((sortByTs h (l ++ [p]) : Level).isEmpty) = false :=
          isEmpty_false_of_ne_nil _ (sortByTs_ne_nil h _ (by simp))
        simp only [addToBidLadder, if_pos h1, List.all_cons, Bool.and_eq_true]
        exact ⟨by simp [hmerge], hm.2⟩
      · by_cases h2 : pr < price
        · simp only [addToBidLadder, if_neg h1, if_pos h2, List.all_cons,
            Bool.and_eq_true]
          exact ⟨by simp [hsingle], hm.1, hm.2⟩
        · simp only [addToBidLadder, if_neg h1, if_neg h2, List.all_cons,
            Bool.and_eq_true]
          exact ⟨hm.1, ih hm.2⟩

theorem addToAskLadder_noEmpty (h : List Order) (price : ℚ) (p : Nat)
    (m : List (ℚ × Level)) (hm : m.all (fun lv => !lv.2.isEmpty) = true) :
    (addToAskLadder h price p m).all (fun lv => !lv.2.isEmpty) = true := by
  have hsingle : ((sortByTs h [p] : Level).isEmpty) = false :=
    isEmpty_false_of_ne_nil _ (sortByTs_ne_nil h [p] (by simp))
  induction m with
  | nil =>
      simp [addToAskLadder, hsingle]
  | cons lv rest ih =>
      rcases lv with ⟨pr, l⟩
      simp only [List.all_cons, Bool.and_eq_true] at hm
      by_cases h1 : price = pr
      · have hmerge : ((sortByTs h (l ++ [p]) : Level).isEmpty) = false :=
          isEmpty_false_of_ne_nil _ (sortByTs_ne_nil h _ (by simp))
        simp only [addToAskLadder, if_pos h1, List.all_cons, Bool.and_eq_true]
        exact ⟨by simp [hmerge], hm.2⟩
      · by_cases h2 : price < pr
        · simp only [addToAskLadder, if_neg h1, if_pos h2, List.all_cons,
            Bool.and_eq_true]
          exact ⟨by simp [hsingle], hm.1, hm.2⟩
        · simp only [addToAskLadder, if_neg h1, if_neg h2, List.all_cons,
            Bool.and_eq_true]
          exact ⟨hm.1, ih hm.2⟩

/-- The C++ `add_order` on an uncrossed book with no retained empty levels leaves
an uncrossed book with no retained empty levels: rejected orders change
nothing, and accepted orders are followed by `match_orders` runs that
re-establish quiescence. -/
theorem add_order_post (s : OrderBook) (o : Order)
    (hne : NoEmptyLevels s = true) (hU : Uncrossed s) :
    Uncrossed (add_order s o).2 ∧
      NoEmptyLevels (add_order s o).2 = true := by
  unfold add_order
  by_cases hsym : o.symbol ≠ s.symbol
  · rw [if_pos hsym]
    exact ⟨hU, hne⟩
  rw [if_neg hsym]
  by_cases hdup : (idLookup s.orders_by_id o.order_id).isSome = true
  · rw [if_pos hdup]
    exact ⟨hU, hne⟩
  rw [if_neg hdup]
  rw [NoEmptyLevels, Bool.and_eq_true] at hne
  by_cases hside : o.side = OrderSide.BUY
  · simp only [hside, process_market_order, process_limit_order, ite_self,
      if_pos rfl]
    have hne3 : NoEmptyLevels
        { s with heap := s.heap ++ [o],
                 orders_by_id := s.orders_by_id ++ [(o.order_id, s.heap.length)],
                 bids := addToBidLadder (s.heap ++ [o]) o.price s.heap.length
                   s.bids,
                 total_orders := s.total_orders + 1 } = true := by
      rw [NoEmptyLevels, Bool.and_eq_true]
      exact ⟨addToBidLadder_noEmpty _ _ _ _ hne.1, hne.2⟩
    have h1 := match_orders_spec _ hne3
    have h2 := match_orders_spec _ h1.2
    exact ⟨h2.1, h2.2⟩
  · simp only [hside, process_market_order, process_limit_order, ite_self,
      if_neg hside]
    have hne3 : NoEmptyLevels
        { s with heap := s.heap ++ [o],
                 orders_by_id := s.orders_by_id ++ [(o.order_id, s.heap.length)],
                 asks := addToAskLadder (s.heap ++ [o]) o.price s.heap.length
                   s.asks,
                 total_orders := s.total_orders + 1 } = true := by
      rw [NoEmptyLevels, Bool.and_eq_true]
      exact ⟨hne.1, addToAskLadder_noEmpty _ _ _ _ hne.2⟩
    have h1 := match_orders_spec _ hne3
    have h2 := match_orders_spec _ h1.2
    exact ⟨h2.1, h2.2⟩

theorem heapModify_getD_proj {β : Type} (g : Order → β) (h : List Order)
    (p q : Nat) (f : Order → Order) (hf : ∀ o, g (f o) = g o) :
    g ((heapModify h p f).getD q default) = g (h.getD q default) := by
  by_cases hq : q = p
  · subst hq
    by_cases hp : q < h.length
    · rw [heapModify_getD_same _ _ _ hp, hf]
    · rw [heapModify_getD_oob _ _ _ _ (le_of_not_lt hp)]
  · rw [heapModify_getD_other _ _ _ _ hq]

theorem matchFill_getD_proj {β : Type} (g : Order → β)
    (heap : List Order) (bPtr sPtr p : Nat)
    (hg : ∀ (o : Order) (n : Nat),
      g { o with filled_quantity := o.filled_quantity + n } = g o) :
    g ((matchFill heap bPtr sPtr).getD p default) =
      g (heap.getD p default) := by
  unfold matchFill
  rw [heapModify_getD_proj g _ _ _ _ (fun o => hg o _),
    heapModify_getD_proj g _ _ _ _ (fun o => hg o _)]

/-- A matching iteration only changes `filled_quantity` in the arena: every
other field of every order (in particular `timestamp` and `status`) is
untouched. -/
theorem matchStep_heap_proj {β : Type} (g : Order → β)
    (hg : ∀ (o : Order) (n : Nat),
      g { o with filled_quantity := o.filled_quantity + n } = g o)
    (s : OrderBook) (p : Nat) :
    g ((matchStep s).heap.getD p default) = g (s.heap.getD p default) := by
  unfold matchStep
  rcases hb : s.bids with _ | ⟨⟨pb, lb⟩, restB⟩
  · rfl
  rcases ha : s.asks with _ | ⟨⟨pa, la⟩, restA⟩
  · simp
  rcases lb with _ | ⟨bPtr, lbT⟩
  · simp
  rcases la with _ | ⟨sPtr, laT⟩
  · simp
  simp only [record_trade]
  exact matchFill_getD_proj g s.heap bPtr sPtr p hg

theorem matchLoop_heap_proj {β : Type} (g : Order → β)
    (hg : ∀ (o : Order) (n : Nat),
      g { o with filled_quantity := o.filled_quantity + n } = g o)
    (fuel : Nat) :
    ∀ (s : OrderBook) (p : Nat),
      g ((matchLoop fuel s).heap.getD p default) =
        g (s.heap.getD p default) := by
  induction fuel with
  | zero => intro s p; rfl
  | succ n ih =>
      intro s p
      rw [matchLoop]
      by_cases hc : matchCond s = true
      · rw [if_pos hc, ih, matchStep_heap_proj g hg]
      · rw [if_neg hc]

theorem match_orders_heap_proj {β : Type} (g : Order → β)
    (hg : ∀ (o : Order) (n : Nat),
      g { o with filled_quantity := o.filled_quantity + n } = g o)
    (s : OrderBook) (p : Nat) :
    g ((match_orders s).heap.getD p default) = g (s.heap.getD p default) :=
  matchLoop_heap_proj g hg (ladderSize s) s p

/-- The `filled_quantity` increment applied to the aggressing buy order,
as observed after both increments (distinct pointers). -/
theorem matchFill_getD_buy (heap : List Order) (bPtr sPtr : Nat)
    (hbp : bPtr < heap.length) (hne : sPtr ≠ bPtr) :
    (matchFill heap bPtr sPtr).getD bPtr default =
      { heap.getD bPtr default with
          filled_quantity := (heap.getD bPtr default).filled_quantity +
            matchQty heap bPtr sPtr } := by
  simp only [matchFill]
  rw [heapModify_getD_other _ _ _ _ (Ne.symm hne),
    heapModify_getD_same _ _ _ hbp]

/-- The `filled_quantity` increment applied to the resting sell order, as
observed after both increments (distinct pointers). -/
theorem matchFill_getD_sell (heap : List Order) (bPtr sPtr : Nat)
    (hsp : sPtr < heap.length) (hne : sPtr ≠ bPtr) :
    (matchFill heap bPtr sPtr).getD sPtr default =
      { heap.getD sPtr default with
          filled_quantity := (heap.getD sPtr default).filled_quantity +
            matchQty heap bPtr sPtr } := by
  simp only [matchFill]
  rw [heapModify_getD_same _ _ _
      (by rw [heapModify_length]; exact hsp),
    heapModify_getD_other _ _ _ _ hne]

/-- One entered matching iteration appends exactly one trade, and that
trade is the spec's midpoint trade: quantity `min(remaining, remaining)`
of the two FIFO heads, priced `(best_bid + best_ask) / 2`, with
`trade_id = trade_count + 1`. -/
theorem matchStep_appends_midpointTrade (s : OrderBook)
    (h : matchCond s = true) :
    (matchStep s).all_trades = s.all_trades ++ [midpointTrade s] := by
  obtain ⟨pb, bPtr, lbT, restB, pa, sPtr, laT, restA, hb, ha, _⟩ :=
    matchCond_shape s h
  unfold matchStep
  rw [hb, ha]
  simp only [record_trade]
  unfold midpointTrade get_best_bid get_best_ask
  rw [hb, ha]
  simp [matchQty]

theorem record_trade_volInv (s : OrderBook) (p : ℚ) (q : Nat)
    (h : VolInv s) : VolInv (record_trade s p q) := by
  unfold VolInv get_total_volume tradeSum at *
  simp only [record_trade, List.map_append, List.sum_append, List.map_cons,
    List.map_nil, List.sum_cons, List.sum_nil]
  rw [h]
  ring

theorem matchStep_volInv (s : OrderBook) (h : VolInv s) :
    VolInv (matchStep s) := by
  unfold matchStep
  split
  · exact record_trade_volInv s _ _ h
  · exact h

theorem matchLoop_volInv (fuel : Nat) :
    ∀ s : OrderBook, VolInv s → VolInv (matchLoop fuel s) := by
  induction fuel with
  | zero => intro s h; exact h
  | succ n ih =>
      intro s h
      rw [matchLoop]
      by_cases hc : matchCond s = true
      · rw [if_pos hc]
        exact ih _ (matchStep_volInv s h)
      · rw [if_neg hc]
        exact h

theorem match_orders_volInv (s : OrderBook) (h : VolInv s) :
    VolInv (match_orders s) :=
  matchLoop_volInv (ladderSize s) s h

theorem add_order_volInv (s : OrderBook) (o : Order) (h : VolInv s) :
    VolInv (add_order s o).2 := by
  unfold add_order
  split
  · exact h
  split
  · exact h
  apply match_orders_volInv
  unfold process_market_order process_limit_order
  split <;> apply match_orders_volInv <;> split <;> exact h

theorem cleanup_volInv (s : OrderBook) (h : VolInv s) :
    VolInv (cleanup_empty_levels s) := h

theorem cancel_order_volInv (s : OrderBook) (oid : Nat) (h : VolInv s) :
    VolInv (cancel_order s oid).2 := by
  unfold cancel_order
  split
  · exact h
  · apply cleanup_volInv
    split <;> exact h

theorem modify_order_volInv (s : OrderBook) (oid newQty : Nat)
    (newPrice : ℚ) (now : Nat) (h : VolInv s) :
    VolInv (modify_order s oid newQty newPrice now).2 := by
  unfold modify_order
  split
  · exact h
  · apply cleanup_volInv
    apply match_orders_volInv
    split <;> split <;> exact h

theorem runOps_volInv (ops : List BookOp) :
    ∀ s : OrderBook, VolInv s → VolInv (runOps ops s) := by
  induction ops with
  | nil => intro s h; exact h
  | cons op rest ih =>
      intro s h
      rcases op with o | oid | ⟨oid, q, p, now⟩
      · exact ih _ (add_order_volInv s o h)
      · exact ih _ (cancel_order_volInv s oid h)
      · exact ih _ (modify_order_volInv s oid q p now h)

theorem cancel_order_not_found (s : OrderBook) (oid : Nat)
    (h : idLookup s.orders_by_id oid = none) :
    cancel_order s oid = (false, s) := by
  unfold cancel_order
  rw [h]

theorem cancel_order_found_fst (s : OrderBook) (oid ptr : Nat)
    (h : idLookup s.orders_by_id oid = some ptr) :
    (cancel_order s oid).1 = true := by
  unfold cancel_order
  rw [h]

theorem cancel_order_found_ids (s : OrderBook) (oid ptr : Nat)
    (h : idLookup s.orders_by_id oid = some ptr) :
    (cancel_order s oid).2.orders_by_id = idErase s.orders_by_id oid := by
  unfold cancel_order
  rw [h]
  split
  · next heq => cases heq
  · next p2 heq =>
      injection heq with hh
      subst hh
      by_cases hside : (s.heap.getD ptr default).side = OrderSide.BUY <;>
        rw [List.getD_eq_getElem?_getD] at hside <;>
        simp [hside, cleanup_empty_levels]

theorem cancel_order_found_heap (s : OrderBook) (oid ptr : Nat)
    (h : idLookup s.orders_by_id oid = some ptr) :
    (cancel_order s oid).2.heap = heapModify s.heap ptr
      (fun o => { o with status := OrderStatus.CANCELLED }) := by
  unfold cancel_order
  rw [h]
  split
  · next heq => cases heq
  · next p2 heq =>
      injection heq with hh
      subst hh
      by_cases hside : (s.heap.getD ptr default).side = OrderSide.BUY <;>
        rw [List.getD_eq_getElem?_getD] at hside <;>
        simp [hside, cleanup_empty_levels]

/-- Nat masking with an all-ones mask is reduction mod the power of two:
`x & (2^k - 1) = x % 2^k` (why `MASK = Size - 1` works in the ring
buffer). -/
theorem land_two_pow_sub_one (n k : Nat) :
    Nat.land n (2 ^ k - 1) = n % 2 ^ k := by
  apply Nat.eq_of_testBit_eq
  intro i
  show (n &&& (2 ^ k - 1)).testBit i = (n % 2 ^ k).testBit i
  simp [Nat.testBit_land, Nat.testBit_mod_two_pow,
    Nat.testBit_two_pow_sub_one, Bool.and_comm]

namespace LockFreeRingBuffer

variable {α : Type}

/-- While fewer than `Size - 1` slots are used (head pinned at 0), every
`try_push` succeeds and advances `tail` by one. -/
theorem pushRepeat_spec (item : α) (k : Nat) (n : Nat) :
    ∀ rb : LockFreeRingBuffer α (2 ^ k), rb.head = 0 →
      rb.tail + n ≤ 2 ^ k - 1 →
      (pushRepeat item n rb).2 = n ∧
        (pushRepeat item n rb).1.head = 0 ∧
        (pushRepeat item n rb).1.tail = rb.tail + n := by
  induction n with
  | zero =>
      intro rb hh ht
      exact ⟨rfl, hh, rfl⟩
  | succ n ih =>
      intro rb hh ht
      have hpow : 0 < 2 ^ k := Nat.pos_pow_of_pos k (by omega)
      have hmod : Nat.land (rb.tail + 1) (2 ^ k - 1) = rb.tail + 1 := by
        rw [land_two_pow_sub_one]
        exact Nat.mod_eq_of_lt (by omega)
      have hsucc : try_push rb item =
          (true, { rb with buffer := rb.buffer.set rb.tail item,
                           tail := rb.tail + 1 }) := by
        unfold try_push
        rw [hmod, if_neg (by omega)]
      rw [pushRepeat, hsucc]
      have := ih { rb with buffer := rb.buffer.set rb.tail item,
                           tail := rb.tail + 1 } hh (by simp; omega)
      simp only at this ⊢
      refine ⟨by rw [this.1]; simp; omega, this.2.1,
        by rw [this.2.2]; omega⟩

/-- With `head = 0` and `tail = Size - 1` the buffer reports full:
`try_push` fails and changes nothing. -/
theorem try_push_full (item : α) (k : Nat)
    (rb : LockFreeRingBuffer α (2 ^ k)) (hh : rb.head = 0)
    (ht : rb.tail = 2 ^ k - 1) :
    try_push rb item = (false, rb) := by
  have hpow : 0 < 2 ^ k := Nat.pos_pow_of_pos k (by omega)
  unfold try_push
  rw [ht, land_two_pow_sub_one]
  have : (2 ^ k - 1 + 1) % 2 ^ k = 0 := by
    have : 2 ^ k - 1 + 1 = 2 ^ k := by omega
    rw [this, Nat.mod_self]
  rw [this, if_pos hh.symm]

end LockFreeRingBuffer

theorem metricsStep_tradesZero (st : EngineMetricsState) (e : MetricsEvent)
    (h : TradesZero st) : TradesZero (metricsStep st e) := by
  obtain ⟨h1, h2, h3⟩ := h
  rcases e with accepted | _ | ns | _ | _
  · rcases accepted with _ | _ <;> exact ⟨h1, h2, h3⟩
  · exact ⟨h1, h2, h3⟩
  · exact ⟨h1, h2, h3⟩
  · refine ⟨h1, h1, ?_⟩
    show st.metrics.trades_executed - st.last_trades = 0
    omega
  · exact ⟨rfl, h2, rfl⟩

theorem runMetrics_tradesZero (evs : List MetricsEvent) :
    ∀ st : EngineMetricsState, TradesZero st →
      TradesZero (runMetrics evs st) := by
  induction evs with
  | nil => intro st h; exact h
  | cons e rest ih =>
      intro st h
      exact ih _ (metricsStep_tradesZero st e h)

/-- For an accepted order, the arena after `add_order` is the old arena
with the new order appended, modulo `filled_quantity` updates from
matching: every other field of every arena entry — in particular every
`timestamp` — is exactly as it was before the call. -/
theorem add_order_heap_proj {β : Type} (g : Order → β)
    (hg : ∀ (o : Order) (n : Nat),
      g { o with filled_quantity := o.filled_quantity + n } = g o)
    (s : OrderBook) (o : Order) (h : (add_order s o).1 = true) (p : Nat) :
    g ((add_order s o).2.heap.getD p default) =
      g ((s.heap ++ [o]).getD p default) := by
  unfold add_order at h ⊢
  by_cases hsym : o.symbol ≠ s.symbol
  · rw [if_pos hsym] at h
    cases h
  rw [if_neg hsym] at h ⊢
  by_cases hdup : (idLookup s.orders_by_id o.order_id).isSome = true
  · rw [if_pos hdup] at h
    cases h
  rw [if_neg hdup]
  simp only [process_market_order, process_limit_order, ite_self]
  by_cases hside : o.side = OrderSide.BUY <;>
    simp only [hside, if_true, if_false, eq_self_iff_true,
      if_pos, reduceIte] <;>
    rw [match_orders_heap_proj g hg, match_orders_heap_proj g hg]

/-! ## Claim theorems -/

/-- C1: a MARKET BUY order submitted to a book whose ask side is empty is
not cancelled and not discarded: `add_order` returns `true`, the order is
rested on the bid ladder at its (ignored) price field, it remains in the
id-map, its status stays `PENDING` (never set to `CANCELLED`), and no
trade is recorded.  This evaluates the code at the failing input of the
claim; the claim (and the comment inside `process_market_order`) say the
order must not rest and the residual must be cancelled. -/
theorem market_order_rests_on_book :
    (add_order (OrderBook.init "AAPL") mktBuy).1 = true ∧
    idLookup (add_order (OrderBook.init "AAPL") mktBuy).2.orders_by_id 1 =
      some 0 ∧
    (add_order (OrderBook.init "AAPL") mktBuy).2.bids = [(0, [0])] ∧
    ((add_order (OrderBook.init "AAPL") mktBuy).2.heap.getD 0 default).status
      = OrderStatus.PENDING ∧
    (add_order (OrderBook.init "AAPL") mktBuy).2.all_trades = [] := by
  refine ⟨rfl, rfl, ?_, rfl, rfl⟩
  rfl

/-- C2 (amended): `add_order` returns `false` and leaves the book
completely unchanged when the order's symbol differs from the book's or
its id is already present; these are the only rejection conditions — no
quantity or price validation is performed. -/
theorem add_order_rejects_symbol_and_dup (s : OrderBook) (o : Order)
    (h : o.symbol ≠ s.symbol ∨
      (idLookup s.orders_by_id o.order_id).isSome = true) :
    add_order s o = (false, s) := by
  unfold add_order
  by_cases hsym : o.symbol ≠ s.symbol
  · rw [if_pos hsym]
  · rw [if_neg hsym]
    rcases h with h | h
    · exact absurd h hsym
    · rw [if_pos h]

/-- C2 witness: re-submitting the already-resting id 1 to `bookOne` is
rejected with no state change. -/
theorem add_order_rejects_symbol_and_dup_witness :
    (idLookup bookOne.orders_by_id buyOrderS1.order_id).isSome = true ∧
    add_order bookOne buyOrderS1 = (false, bookOne) :=
  ⟨rfl, add_order_rejects_symbol_and_dup bookOne buyOrderS1 (Or.inr rfl)⟩

/-- C2 counterexample: a LIMIT BUY with quantity 0 (ill-formed per the
claim) is accepted — `add_order` returns `true` and rests it on the book,
where the claim requires `false` with no state change. -/
theorem zero_quantity_order_accepted :
    (add_order (OrderBook.init "AAPL") zqOrder).1 = true ∧
    idLookup zqBook.orders_by_id 1 = some 0 := by
  exact ⟨rfl, rfl⟩

/-- C4 (amended): `add_order` never assigns the arrival timestamp.  For an
accepted order the arena after the call holds the old orders plus the new
one, each with exactly the timestamp it had before the call — i.e. the
timestamp assigned by the client-side `Order` constructor.  (Only
`modify_order` ever refreshes a timestamp.) -/
theorem add_order_preserves_timestamps (s : OrderBook) (o : Order)
    (h : (add_order s o).1 = true) (p : Nat) :
    ((add_order s o).2.heap.getD p default).timestamp =
      ((s.heap ++ [o]).getD p default).timestamp :=
  add_order_heap_proj (fun o => o.timestamp) (fun _ _ => rfl) s o h p

/-- C4 witness: adding `buyOrderS1` (constructed at time 10) to an empty
book rests it with timestamp 10. -/
theorem add_order_preserves_timestamps_witness :
    (add_order (OrderBook.init "AAPL") buyOrderS1).1 = true ∧
    ((add_order (OrderBook.init "AAPL") buyOrderS1).2.heap.getD 0
      default).timestamp = 10 :=
  ⟨rfl, add_order_preserves_timestamps (OrderBook.init "AAPL") buyOrderS1
    rfl 0⟩

/-- C4 counterexample: two `add_order` calls identical except for the
client-side construction time (42 vs 43) rest the order with timestamps
42 and 43 respectively — the book timestamp is determined by client-side
construction, not assigned at the moment the order enters the book. -/
theorem timestamp_set_at_construction :
    ((add_order (OrderBook.init "AAPL")
      (Order.construct 1 0 "AAPL" OrderSide.BUY OrderType.LIMIT 100 150 42)
      ).2.heap.getD 0 default).timestamp = 42 ∧
    ((add_order (OrderBook.init "AAPL")
      (Order.construct 1 0 "AAPL" OrderSide.BUY OrderType.LIMIT 100 150 43)
      ).2.heap.getD 0 default).timestamp = 43 :=
  ⟨rfl, rfl⟩

/-- C6: immediately after every `add_order` invocation on a well-formed
book (no retained empty price levels — spec invariant 2 — and not
crossed, both established by every prior operation and holding for the
empty book), the book is again uncrossed: bid side empty, or ask side
empty, or `best_bid < best_ask`. -/
theorem add_order_never_leaves_crossed_book (s : OrderBook) (o : Order)
    (hne : NoEmptyLevels s = true) (hU : Uncrossed s) :
    Uncrossed (add_order s o).2 :=
  (add_order_post s o hne hU).1

/-- C6 witness: the empty book satisfies both hypotheses, and adding
`buyOrderS1` leaves it uncrossed. -/
theorem add_order_never_leaves_crossed_book_witness :
    NoEmptyLevels (OrderBook.init "AAPL") = true ∧
    Uncrossed (OrderBook.init "AAPL") ∧
    Uncrossed (add_order (OrderBook.init "AAPL") buyOrderS1).2 :=
  ⟨rfl, Or.inl rfl,
    add_order_never_leaves_crossed_book (OrderBook.init "AAPL") buyOrderS1
      rfl (Or.inl rfl)⟩

/-- C7: cancelling the same id twice.  The first call returns `true`
exactly when the id is resting; when it is (at a live arena index), the
order's status is set to `CANCELLED` and it is removed from the id-map.
The second call returns `false` and leaves the book exactly as the first
call left it. -/
theorem cancel_order_twice (s : OrderBook) (oid : Nat) :
    ((cancel_order s oid).1 = (idLookup s.orders_by_id oid).isSome) ∧
    (∀ ptr, idLookup s.orders_by_id oid = some ptr →
      ptr < s.heap.length →
      ((cancel_order s oid).2.heap.getD ptr default).status =
          OrderStatus.CANCELLED ∧
        idLookup (cancel_order s oid).2.orders_by_id oid = none) ∧
    (cancel_order (cancel_order s oid).2 oid).1 = false ∧
    (cancel_order (cancel_order s oid).2 oid).2 = (cancel_order s oid).2 := by
  rcases hl : idLookup s.orders_by_id oid with _ | ptr
  · have h1 := cancel_order_not_found s oid hl
    have h2 : cancel_order (cancel_order s oid).2 oid = (false, s) := by
      rw [h1]
      exact cancel_order_not_found s oid hl
    refine ⟨by rw [h1]; rfl, ?_, by rw [h2], by rw [h2, h1]⟩
    intro p hp
    exact absurd hp (by simp)
  · have hids := cancel_order_found_ids s oid ptr hl
    have hheap := cancel_order_found_heap s oid ptr hl
    have hl2 : idLookup (cancel_order s oid).2.orders_by_id oid = none := by
      rw [hids]
      exact idLookup_erase_self _ _
    have h2 := cancel_order_not_found _ oid hl2
    refine ⟨by rw [cancel_order_found_fst s oid ptr hl]; rfl, ?_,
      by rw [h2], by rw [h2]⟩
    intro p hp hplen
    injection hp with hpe
    subst hpe
    refine ⟨?_, hl2⟩
    rw [hheap, heapModify_getD_same _ _ _ hplen]

/-- C7 witness: on `bookOne` (one resting order, id 1 at arena index 0),
the first cancel succeeds, marks the order `CANCELLED` and unmaps it; the
second cancel fails and changes nothing. -/
theorem cancel_order_twice_witness :
    (cancel_order bookOne 1).1 = true ∧
    ((cancel_order bookOne 1).2.heap.getD 0 default).status =
      OrderStatus.CANCELLED ∧
    idLookup (cancel_order bookOne 1).2.orders_by_id 1 = none ∧
    (cancel_order (cancel_order bookOne 1).2 1).1 = false ∧
    (cancel_order (cancel_order bookOne 1).2 1).2 =
      (cancel_order bookOne 1).2 :=
  ⟨(cancel_order_twice bookOne 1).1,
    ((cancel_order_twice bookOne 1).2.1 0 rfl (by decide)).1,
    ((cancel_order_twice bookOne 1).2.1 0 rfl (by decide)).2,
    (cancel_order_twice bookOne 1).2.2.1,
    (cancel_order_twice bookOne 1).2.2.2⟩

/-- C8: a `LockFreeRingBuffer` of capacity `Size = 2^k` (the template
requires a power of two) starting empty accepts exactly `Size - 1`
consecutive `try_push`es; the `Size`-th returns `false` (detected by
`(tail + 1) & (Size - 1) == head`, i.e. `(tail + 1) mod Size == head`)
and leaves the buffer unchanged. -/
theorem ring_buffer_one_slot_unused (α : Type) (a item : α) (k : Nat) :
    (LockFreeRingBuffer.pushRepeat item (2 ^ k - 1)
      (LockFreeRingBuffer.init α (2 ^ k) a)).2 = 2 ^ k - 1 ∧
    LockFreeRingBuffer.try_push
      (LockFreeRingBuffer.pushRepeat item (2 ^ k - 1)
        (LockFreeRingBuffer.init α (2 ^ k) a)).1 item =
      (false, (LockFreeRingBuffer.pushRepeat item (2 ^ k - 1)
        (LockFreeRingBuffer.init α (2 ^ k) a)).1) := by
  have hspec := LockFreeRingBuffer.pushRepeat_spec item k (2 ^ k - 1)
    (LockFreeRingBuffer.init α (2 ^ k) a) rfl
    (by simp [LockFreeRingBuffer.init])
  refine ⟨hspec.1, ?_⟩
  exact LockFreeRingBuffer.try_push_full item k _ hspec.2.1
    (by rw [hspec.2.2]; simp [LockFreeRingBuffer.init])

/-- C9: after every sequence of public `OrderBook` operations starting
from a fresh book, `get_total_volume` equals the sum of
`trade_price * trade_quantity` over all trades ever recorded (the ghost
`all_trades` history, unaffected by the bounded `recent_trades_`
eviction). -/
theorem total_volume_is_trade_sum (sym : String) (ops : List BookOp) :
    get_total_volume (runOps ops (OrderBook.init sym)) =
      tradeSum (runOps ops (OrderBook.init sym)).all_trades :=
  runOps_volInv ops (OrderBook.init sym) rfl

/-- C10: no engine operation ever increments `trades_executed`: over every
sequence of metrics-mutating engine steps (order processing, market data,
latency samples, throughput ticks, resets) the counter reads 0, and the
`trades_per_second` gauge derived from it by the metrics thread is also
always 0. -/
theorem trades_executed_never_incremented (evs : List MetricsEvent) :
    (runMetrics evs EngineMetricsState.start).metrics.trades_executed = 0 ∧
    (runMetrics evs EngineMetricsState.start).metrics.trades_per_second
      = 0 := by
  have h := runMetrics_tradesZero evs EngineMetricsState.start
    ⟨rfl, rfl, rfl⟩
  exact ⟨h.1, h.2.2⟩

/-- C3 (amended): one entered matching iteration, acting on the FIFO heads
`bPtr` (buy side) and `sPtr` (sell side) of the two best levels, with both
counterparties in the normal fill state `filled_quantity ≤ quantity` (the
state every order is in unless `modify_order` shrank its quantity below an
existing fill — there the C++ `uint64_t` remaining quantity wraps and this
per-match accounting is out of scope), increments both counterparties'
`filled_quantity` by the match quantity and removes a counterparty from
the id-map exactly when its remaining quantity reaches 0 — but it never
updates either order's `status` (the claimed `PARTIALLY_FILLED` /
`FILLED` transitions do not happen; `status = FILLED ⇔ remaining = 0`
fails for every filled order).  On the hypothesis domain the truncated
`Nat` subtraction in `remaining_quantity` coincides with the `uint64_t`
subtraction, so every quantity below is the one the C++ code computes. -/
theorem match_step_fills_but_not_status (s : OrderBook) (pb pa : ℚ)
    (bPtr sPtr : Nat) (lbT laT : Level) (restB restA : List (ℚ × Level))
    (hb : s.bids = (pb, bPtr :: lbT) :: restB)
    (ha : s.asks = (pa, sPtr :: laT) :: restA)
    (hpa : pa ≤ pb)
    (hbp : bPtr < s.heap.length) (hsp : sPtr < s.heap.length)
    (hptr : sPtr ≠ bPtr)
    (hwb : (s.heap.getD bPtr default).filled_quantity ≤
      (s.heap.getD bPtr default).quantity)
    (hws : (s.heap.getD sPtr default).filled_quantity ≤
      (s.heap.getD sPtr default).quantity)
    (hidb : idLookup s.orders_by_id
      (s.heap.getD bPtr default).order_id = some bPtr)
    (hids : idLookup s.orders_by_id
      (s.heap.getD sPtr default).order_id = some sPtr)
    (hidne : (s.heap.getD sPtr default).order_id ≠
      (s.heap.getD bPtr default).order_id) :
    ((matchStep s).heap.getD bPtr default).filled_quantity =
      (s.heap.getD bPtr default).filled_quantity +
        matchQty s.heap bPtr sPtr ∧
    ((matchStep s).heap.getD sPtr default).filled_quantity =
      (s.heap.getD sPtr default).filled_quantity +
        matchQty s.heap bPtr sPtr ∧
    ((matchStep s).heap.getD bPtr default).status =
      (s.heap.getD bPtr default).status ∧
    ((matchStep s).heap.getD sPtr default).status =
      (s.heap.getD sPtr default).status ∧
    (idLookup (matchStep s).orders_by_id
        (s.heap.getD bPtr default).order_id =
      if ((matchStep s).heap.getD bPtr default).remaining_quantity = 0
      then none else some bPtr) ∧
    (idLookup (matchStep s).orders_by_id
        (s.heap.getD sPtr default).order_id =
      if ((matchStep s).heap.getD sPtr default).remaining_quantity = 0
      then none else some sPtr) := by
  have hheap : (matchStep s).heap = matchFill s.heap bPtr sPtr := by
    unfold matchStep
    rw [hb, ha]
  have hfillb := matchFill_getD_buy s.heap bPtr sPtr hbp hptr
  have hfills := matchFill_getD_sell s.heap bPtr sPtr hsp hptr
  have hBF : buyFilledAfter s.heap bPtr sPtr =
      decide ((s.heap.getD bPtr default).quantity ≤
        (s.heap.getD bPtr default).filled_quantity +
          matchQty s.heap bPtr sPtr) := by
    unfold buyFilledAfter
    rw [hfillb]
    rfl
  have hSF : sellFilledAfter s.heap bPtr sPtr =
      decide ((s.heap.getD sPtr default).quantity ≤
        (s.heap.getD sPtr default).filled_quantity +
          matchQty s.heap bPtr sPtr) := by
    unfold sellFilledAfter
    rw [hfills]
    rfl
  have hidsExpr : (matchStep s).orders_by_id =
      (if sellFilledAfter s.heap bPtr sPtr then
        idErase (if buyFilledAfter s.heap bPtr sPtr then
            idErase s.orders_by_id (s.heap.getD bPtr default).order_id
          else s.orders_by_id) (s.heap.getD sPtr default).order_id
      else if buyFilledAfter s.heap bPtr sPtr then
        idErase s.orders_by_id (s.heap.getD bPtr default).order_id
      else s.orders_by_id) := by
    unfold matchStep
    rw [hb, ha]
    by_cases h1 : buyFilledAfter s.heap bPtr sPtr = true <;>
      by_cases h2 : sellFilledAfter s.heap bPtr sPtr = true <;>
      simp [h1, h2, record_trade]
  refine ⟨by rw [hheap, hfillb], by rw [hheap, hfills],
    matchStep_heap_proj (fun o => o.status) (fun _ _ => rfl) s bPtr,
    matchStep_heap_proj (fun o => o.status) (fun _ _ => rfl) s sPtr,
    ?_, ?_⟩
  · have hrem : ((matchStep s).heap.getD bPtr default).remaining_quantity =
        (s.heap.getD bPtr default).quantity -
          ((s.heap.getD bPtr default).filled_quantity +
            matchQty s.heap bPtr sPtr) := by
      rw [hheap, hfillb]
      rfl
    rw [hrem, hidsExpr]
    by_cases h1 : (s.heap.getD bPtr default).quantity ≤
        (s.heap.getD bPtr default).filled_quantity +
          matchQty s.heap bPtr sPtr
    · have hbf : buyFilledAfter s.heap bPtr sPtr = true := by
        rw [hBF]
        exact decide_eq_true h1
      rw [if_pos (Nat.sub_eq_zero_of_le h1), hbf]
      by_cases h2 : sellFilledAfter s.heap bPtr sPtr = true
      · rw [h2]
        simp only [eq_self_iff_true, if_true]
        rw [idLookup_erase_other _ _ _ (fun hh => hidne hh.symm)]
        exact idLookup_erase_self _ _
      · rw [Bool.not_eq_true] at h2
        rw [h2]
        simp only [Bool.false_eq_true, if_false, eq_self_iff_true, if_true]
        exact idLookup_erase_self _ _
    · have hbf : buyFilledAfter s.heap bPtr sPtr = false := by
        rw [hBF]
        exact decide_eq_false h1
      have hne0 : ¬((s.heap.getD bPtr default).quantity -
          ((s.heap.getD bPtr default).filled_quantity +
            matchQty s.heap bPtr sPtr) = 0) := by
        omega
      rw [if_neg hne0, hbf]
      by_cases h2 : sellFilledAfter s.heap bPtr sPtr = true
      · rw [h2]
        simp only [Bool.false_eq_true, if_false, eq_self_iff_true, if_true]
        rw [idLookup_erase_other _ _ _ (fun hh => hidne hh.symm)]
        exact hidb
      · rw [Bool.not_eq_true] at h2
        rw [h2]
        simp only [Bool.false_eq_true, if_false]
        exact hidb
  · have hrem : ((matchStep s).heap.getD sPtr default).remaining_quantity =
        (s.heap.getD sPtr default).quantity -
          ((s.heap.getD sPtr default).filled_quantity +
            matchQty s.heap bPtr sPtr) := by
      rw [hheap, hfills]
      rfl
    rw [hrem, hidsExpr]
    by_cases h2 : (s.heap.getD sPtr default).quantity ≤
        (s.heap.getD sPtr default).filled_quantity +
          matchQty s.heap bPtr sPtr
    · have hsf : sellFilledAfter s.heap bPtr sPtr = true := by
        rw [hSF]
        exact decide_eq_true h2
      rw [if_pos (Nat.sub_eq_zero_of_le h2), hsf]
      simp only [eq_self_iff_true, if_true]
      exact idLookup_erase_self _ _
    · have hsf : sellFilledAfter s.heap bPtr sPtr = false := by
        rw [hSF]
        exact decide_eq_false h2
      have hne0 : ¬((s.heap.getD sPtr default).quantity -
          ((s.heap.getD sPtr default).filled_quantity +
            matchQty s.heap bPtr sPtr) = 0) := by
        omega
      rw [if_neg hne0, hsf]
      simp only [Bool.false_eq_true, if_false]
      by_cases h1 : buyFilledAfter s.heap bPtr sPtr = true
      · rw [h1]
        simp only [eq_self_iff_true, if_true]
        rw [idLookup_erase_other _ _ _ hidne]
        exact hids
      · rw [Bool.not_eq_true] at h1
        rw [h1]
        simp only [Bool.false_eq_true, if_false]
        exact hids

/-- C3 witness: on `crossedBook` (BUY 100 @ 150 v SELL 40 @ 149, match
quantity 40) the step fills both sides by 40, keeps both statuses at
`PENDING`, keeps the partially-filled buy (remaining 60) in the id-map and
unmaps the fully-filled sell. -/
theorem match_step_fills_but_not_status_witness :
    (149 : ℚ) ≤ 150 ∧
    ((matchStep crossedBook).heap.getD 0 default).filled_quantity = 40 ∧
    ((matchStep crossedBook).heap.getD 1 default).filled_quantity = 40 ∧
    ((matchStep crossedBook).heap.getD 0 default).status =
      OrderStatus.PENDING ∧
    ((matchStep crossedBook).heap.getD 1 default).status =
      OrderStatus.PENDING ∧
    idLookup (matchStep crossedBook).orders_by_id 1 = some 0 ∧
    idLookup (matchStep crossedBook).orders_by_id 2 = none := by
  have T := match_step_fills_but_not_status crossedBook 150 149 0 1 [] []
    [] [] rfl rfl (by decide) (by decide) (by decide) (by decide)
    (by decide) (by decide) rfl rfl (by decide)
  exact ⟨by decide, T.1, T.2.1, T.2.2.1, T.2.2.2.1, T.2.2.2.2.1,
    T.2.2.2.2.2⟩

/-- C3 counterexample: in scenario S1 the buy order (arena index 0) ends
with `filled_quantity = quantity = 100` (remaining 0) and is removed from
the book, yet its status is still `PENDING`, not `FILLED` — refuting
"status = FILLED if and only if remaining quantity = 0" for orders removed
from the book. -/
theorem filled_order_status_stays_pending :
    (bookS1.heap.getD 0 default).quantity = 100 ∧
    (bookS1.heap.getD 0 default).filled_quantity = 100 ∧
    idLookup bookS1.orders_by_id 1 = none ∧
    (bookS1.heap.getD 0 default).status = OrderStatus.PENDING ∧
    OrderStatus.PENDING ≠ OrderStatus.FILLED := by
  refine ⟨rfl, rfl, rfl, rfl, by decide⟩

/-- C5 (amended): every trade of an entered matching iteration is the
midpoint trade — priced `(best_bid + best_ask) / 2` with quantity
`min(remaining, remaining)` — and in scenario S1 (BUY 100 @ 150 then
SELL 100 @ 149) exactly one trade `{price 149.5, qty 100}` is recorded,
the book ends empty and both orders end fully filled (remaining 0), though
their status fields stay `PENDING` rather than `FILLED` (see the
counterexample). -/
theorem trade_price_is_midpoint :
    (∀ s : OrderBook, matchCond s = true →
      (matchStep s).all_trades = s.all_trades ++ [midpointTrade s]) ∧
    bookS1.all_trades.map (fun t => (t.trade_price, t.trade_quantity)) =
      [(149.5, 100)] ∧
    bookS1.bids = [] ∧ bookS1.asks = [] ∧ bookS1.orders_by_id = [] ∧
    (bookS1.heap.getD 0 default).remaining_quantity = 0 ∧
    (bookS1.heap.getD 1 default).remaining_quantity = 0 := by
  refine ⟨matchStep_appends_midpointTrade, ?_, rfl, rfl, rfl, rfl, rfl⟩
  have h : bookS1.all_trades = [tradeS1] := rfl
  rw [h]
  norm_num [tradeS1]

/-- C5 witness: the crossed book's matching iteration appends exactly the
midpoint trade. -/
theorem trade_price_is_midpoint_witness :
    matchCond crossedBook = true ∧
    (matchStep crossedBook).all_trades = [midpointTrade crossedBook] :=
  ⟨by decide, trade_price_is_midpoint.1 crossedBook (by decide)⟩

/-- C5 counterexample: in scenario S1 the sell order (arena index 1) is
fully filled (`is_filled` holds) but its status is `PENDING`, not the
claimed `FILLED`. -/
theorem sell_order_status_not_filled :
    (bookS1.heap.getD 1 default).is_filled = true ∧
    (bookS1.heap.getD 1 default).status = OrderStatus.PENDING ∧
    OrderStatus.PENDING ≠ OrderStatus.FILLED := by
  refine ⟨rfl, rfl, by decide⟩

end UltraFastAnalysis
